import Mathlib

/-!
# Verification of the Budget Allocator (`budget_allocator.py`)

Shallow embedding of the `BudgetAllocator` class of `src/budget_allocator.py`.
Money amounts are modelled as exact rationals (the spec mandates decimal
semantics for money; the source's binary floats are idealised to `ℚ`, with
Python's `round(x, 2)` modelled as rounding to the nearest hundredth).
Python dicts (which preserve insertion order and have unique keys) are
modelled as association lists with first-key lookup; in-place dict/list
mutation becomes functional update of the first matching binding.

Effects that matter to the claims are made explicit on the state:
* `save_count` counts calls to `_save_state` (persistence to the GitHub
  store; network I/O itself is out of scope),
* `log` is the ledger's `"log"` list, capped at the last 100 entries as in
  `_log_event`; log entries are modelled as an inductive event type carrying
  the data interpolated into the source's message strings (timestamps and
  exact string formatting are presentation and are not modelled),
* a Python exception escaping an operation is surfaced as an `Except` error
  alongside the state as mutated up to the point of the raise (the source
  mutates `self.state` in place, so those mutations survive the raise).

Two textual defects of the source are handled as follows:
* `report_trade_close` line 464 reads the never-bound local `strat_cfg`,
  which raises `NameError` at runtime; the embedding returns
  `.error .nameError` there, with the state mutated exactly as far as the
  source got (the tier P&L update on lines 465-466 is never reached).
* Line 505 is indented one column too deep (the module as shipped does not
  even tokenise: line 514 dedents to a level matching no open block). The
  embedding uses the unique consistent reading, in which the inner
  `if ... != "total_drawdown_peak_tripped"` guards the trip action and the
  `return` on line 514 ends the `drawdown_from_peak >= 0.20` branch.
-/

/-- Python `round(x, 2)` idealised on exact rationals: round to the nearest
hundredth (`Mathlib`'s `round`, i.e. ties go up; the source's float `round`
resolves ties by the binary representation, an artefact of the float
idealisation that no claim exercises). -/
def round2 (q : ℚ) : ℚ := (round (100 * q) : ℤ) / 100

/-- `circuit_breaker_status` values, per the three string constants of the
source (`"active"`, `"total_drawdown_initial_tripped"`,
`"total_drawdown_peak_tripped"`). -/
inductive BreakerStatus
  | active
  | totalDrawdownInitialTripped
  | totalDrawdownPeakTripped
deriving DecidableEq, Repr

/-- The source's test `"tripped" in self.state["circuit_breaker_status"]`:
true exactly for the two tripped string constants. -/
def BreakerStatus.isTripped : BreakerStatus → Bool
  | .active => false
  | .totalDrawdownInitialTripped => true
  | .totalDrawdownPeakTripped => true

/-- One entry of `RISK_TIER_CONFIG`. -/
structure TierCfg where
  percentage : ℚ
  max_loss_pct_of_tier : ℚ
deriving DecidableEq, Repr

/-- One entry of `STRATEGY_CONFIG` (the inert `description` string is
dropped). -/
structure StratCfg where
  risk_tier : String
  tier_share_percentage : ℚ
  max_capital_per_trade_usdt : ℚ
  max_concurrent_positions : ℕ
  requires_capital : Bool
deriving DecidableEq, Repr

/-- The static configuration handed to `BudgetAllocator.__init__`. -/
structure Config where
  risk_tier_config : List (String × TierCfg)
  strategy_config : List (String × StratCfg)
deriving DecidableEq, Repr

/-- A value of `state["risk_tiers"][name]`. -/
structure TierState where
  total_capital_usdt : ℚ
  available_capital_usdt : ℚ
  current_pnl_usdt : ℚ
  max_loss_threshold_usdt : ℚ
deriving DecidableEq, Repr

/-- A value of `state["strategies"][name]` (the inert `description` string is
dropped). -/
structure StratState where
  risk_tier : String
  tier_share_percentage : ℚ
  potential_capital_usdt : ℚ
  allocated_capital_usdt : ℚ
  available_for_new_positions_usdt : ℚ
  capital_in_use_usdt : ℚ
  current_pnl_usdt : ℚ
  max_capital_per_trade_usdt : ℚ
  max_concurrent_positions : ℕ
  requires_capital : Bool
deriving DecidableEq, Repr

/-- An entry of `state["active_positions_by_strategy"][name]` (the
`open_time_utc` timestamp is presentation-only and not modelled). -/
structure Position where
  id : String
  capital_usdt : ℚ
deriving DecidableEq, Repr

/-- Log events, one constructor per `_log_event` call site, carrying the data
interpolated into the corresponding message string. -/
inductive LogEvent
  | initialized (budget : ℚ)
  | allocatedTier (tier : String) (amount : ℚ)
  | strategyConfigured (strat tier : String) (amount : ℚ)
  | assignedToStrategy (tier strat : String) (amount : ℚ)
  | newPeak (amount : ℚ)
  | rebalanceComplete
  | breakerDeniedRequest (strat : String) (status : BreakerStatus)
  | maxPositionsDenied (strat : String) (n maxPos : ℕ)
  | insufficientCapital (strat : String) (available requested : ℚ)
  | approvedRequest (strat : String) (amount : ℚ) (posId : String)
  | tradeClosed (strat posId : String) (capital pnl : ℚ)
  | positionNotFound (strat posId : String)
  | breakerTrippedInitial (drawdown : ℚ)
  | breakerTrippedPeak (drawdown : ℚ)
  | tierMaxLossWarning (tier : String)
  | breakerReset
deriving DecidableEq, Repr

/-- The ledger document `self.state` (fields `last_updated_utc` and
`_file_sha` are store metadata, not modelled; `save_count` counts
`_save_state` calls). -/
structure Ledger where
  initial_budget_usdt : ℚ
  current_total_budget_usdt : ℚ
  peak_total_budget_usdt : ℚ
  overall_pnl_usdt : ℚ
  risk_tiers : List (String × TierState)
  strategies : List (String × StratState)
  active_positions_by_strategy : List (String × List Position)
  circuit_breaker_status : BreakerStatus
  log : List LogEvent
  save_count : ℕ
deriving DecidableEq, Repr

/-- A Python exception escaping an operation. -/
inductive PyErr
  | nameError
  | keyError
deriving DecidableEq, Repr

/-- Decidable equality of `Except` results (core provides none). -/
instance exceptDecEq {ε α : Type} [DecidableEq ε] [DecidableEq α] :
    DecidableEq (Except ε α) := fun a b =>
  match a, b with
  | .ok x, .ok y =>
    if h : x = y then .isTrue (by rw [h]) else .isFalse (by simp [h])
  | .error x, .error y =>
    if h : x = y then .isTrue (by rw [h]) else .isFalse (by simp [h])
  | .ok _, .error _ => .isFalse (by simp)
  | .error _, .ok _ => .isFalse (by simp)

/-- The message returned by `request_capital_for_trade`, one constructor per
message string, carrying the interpolated data. -/
inductive Msg
  | breakerTripped (strat : String) (status : BreakerStatus)
  | strategyNotFound (strat : String)
  | noCapitalRequired (strat : String)
  | maxPositions (strat : String) (n maxPos : ℕ)
  | insufficientCapital (strat : String) (available requested : ℚ)
  | approved (amount : ℚ) (strat posId : String)
deriving DecidableEq, Repr

/-- The `(approved, allocated_usdt, message)` tuple returned by
`request_capital_for_trade`. -/
structure ReqResult where
  approved : Bool
  granted : ℚ
  msg : Msg
deriving DecidableEq, Repr

/-! ## Association-list helpers (Python dict operations) -/

/-- Dict lookup: value of the first binding of the key. -/
def alookup {β : Type} : List (String × β) → String → Option β
  | [], _ => none
  | (k, v) :: rest, n => if k = n then some v else alookup rest n

/-- Dict update of an existing key: replace the value of the first binding,
keeping its place; no-op if the key is absent. -/
def aupdate {β : Type} : List (String × β) → String → β → List (String × β)
  | [], _, _ => []
  | (k, v) :: rest, n, b => if k = n then (k, b) :: rest else (k, v) :: aupdate rest n b

/-- `state["active_positions_by_strategy"].setdefault(name, []).append(pos)`:
append to the first binding's list, or add a new binding at the end. -/
def appendPos : List (String × List Position) → String → Position → List (String × List Position)
  | [], n, p => [(n, [p])]
  | (k, v) :: rest, n, p =>
    if k = n then (k, v ++ [p]) :: rest else (k, v) :: appendPos rest n p

/-- Remove the first position with the given id (the `enumerate`/`pop(i)`
loop of `report_trade_close`), returning it and the remaining list. -/
def removeFirstPos : List Position → String → Option (Position × List Position)
  | [], _ => none
  | p :: rest, pid =>
    if p.id = pid then some (p, rest)
    else (removeFirstPos rest pid).map (fun q => (q.1, p :: q.2))

/-- The list of active positions of a strategy (`.get(strategy_name, [])`). -/
def activeFor (s : Ledger) (n : String) : List Position :=
  (alookup s.active_positions_by_strategy n).getD []

/-! ## Event log (`_log_event`) -/

/-- `_log_event`: append, then keep only the last 100 entries. -/
def logAppend (l : List LogEvent) (e : LogEvent) : List LogEvent :=
  let l2 := l ++ [e]
  if 100 < l2.length then l2.drop (l2.length - 100) else l2

/-- A sequence of `_log_event` calls. -/
def appendEvents (l : List LogEvent) (es : List LogEvent) : List LogEvent :=
  es.foldl logAppend l

/-! ## Allocation engine (`_initialize_allocations`)

The source mutates `state_dict` in three passes; the data produced by each
pass depends only on `current_total_budget_usdt` and the static
configuration, so each pass is embedded as a pure function and the log
events appended along the way are collected separately (in source order). -/

/-- Pass 1: build `state_dict["risk_tiers"]` from the tier configuration. -/
def computeTiers (cfg : Config) (total : ℚ) : List (String × TierState) :=
  cfg.risk_tier_config.map (fun kv =>
    (kv.1,
      { total_capital_usdt := round2 (total * kv.2.percentage)
        available_capital_usdt := round2 (total * kv.2.percentage)
        current_pnl_usdt := 0
        max_loss_threshold_usdt := round2 (total * kv.2.percentage * kv.2.max_loss_pct_of_tier) }))

/-- Pass 2, one entry: the zero-allocation strategy record, or `none` when
the strategy's tier is unknown (skipped with an ERROR log in the source). -/
def strategyEntry (tiers : List (String × TierState)) (kv : String × StratCfg) :
    Option (String × StratState) :=
  match alookup tiers kv.2.risk_tier with
  | none => none
  | some ts => some (kv.1,
    { risk_tier := kv.2.risk_tier
      tier_share_percentage := kv.2.tier_share_percentage
      potential_capital_usdt := round2 (ts.total_capital_usdt * kv.2.tier_share_percentage)
      allocated_capital_usdt := 0
      available_for_new_positions_usdt := 0
      capital_in_use_usdt := 0
      current_pnl_usdt := 0
      max_capital_per_trade_usdt := kv.2.max_capital_per_trade_usdt
      max_concurrent_positions := kv.2.max_concurrent_positions
      requires_capital := kv.2.requires_capital })

/-- Pass 2: build `state_dict["strategies"]`; a strategy whose tier is
unknown is skipped (logged at ERROR, not a state log event). -/
def computeStrategies (cfg : Config) (tiers : List (String × TierState)) :
    List (String × StratState) :=
  cfg.strategy_config.filterMap (strategyEntry tiers)

/-- `D`: the sum of `tier_share_percentage` over the capital-requiring
strategies of a tier, taken from the static configuration. -/
def sumShares (cfg : Config) (tierName : String) : ℚ :=
  (cfg.strategy_config.foldl (fun acc kv =>
    if kv.2.risk_tier = tierName ∧ kv.2.requires_capital then
      acc + kv.2.tier_share_percentage
    else acc) 0)

/-- Pass 3, one entry of the inner strategy loop: a capital-requiring
strategy of this tier receives `allocated = available = tier_avail *
(share / D)`, rounded to 2 decimals; anything else is untouched. A strategy
name missing from the configuration would be a `KeyError` in the source; it
cannot occur since pass 2 only emits configured names, and is embedded as a
no-op. -/
def distributeEntry (cfg : Config) (tierName : String) (tierAvail D : ℚ)
    (kv : String × StratState) : String × StratState :=
  match alookup cfg.strategy_config kv.1 with
  | none => kv
  | some scfg =>
    if scfg.risk_tier = tierName ∧ scfg.requires_capital then
      (kv.1, { kv.2 with
        allocated_capital_usdt := round2 (tierAvail * (scfg.tier_share_percentage / D))
        available_for_new_positions_usdt := round2 (tierAvail * (scfg.tier_share_percentage / D)) })
    else kv

/-- Pass 3, one tier: distribute the tier's available capital over its
capital-requiring strategies in proportion to their shares (the `continue`
when `D = 0` leaves the strategies untouched). -/
def distributeTier (cfg : Config) (tierName : String) (tierAvail : ℚ)
    (strats : List (String × StratState)) : List (String × StratState) :=
  if sumShares cfg tierName = 0 then strats
  else strats.map (distributeEntry cfg tierName tierAvail (sumShares cfg tierName))

/-- Pass 3, all tiers (the outer `for tier_name in state_dict["risk_tiers"]`
loop). -/
def distributeAll (cfg : Config) (tiers : List (String × TierState))
    (strats : List (String × StratState)) : List (String × StratState) :=
  tiers.foldl (fun acc kv => distributeTier cfg kv.1 kv.2.available_capital_usdt acc) strats

/-- The log events appended by `_initialize_allocations`, in source order
(pass 1 per tier, pass 2 per configured strategy with a known tier, pass 3
per tier and capital-requiring strategy). -/
def recalcLogEvents (cfg : Config) (total : ℚ) : List LogEvent :=
  (cfg.risk_tier_config.map (fun kv => LogEvent.allocatedTier kv.1 (total * kv.2.percentage)))
  ++ (cfg.strategy_config.filterMap (fun kv =>
        match alookup (computeTiers cfg total) kv.2.risk_tier with
        | none => none
        | some ts => some (LogEvent.strategyConfigured kv.1 kv.2.risk_tier
            (ts.total_capital_usdt * kv.2.tier_share_percentage))))
  ++ ((computeTiers cfg total).flatMap (fun tkv =>
        let D := sumShares cfg tkv.1
        if D = 0 then []
        else (computeStrategies cfg (computeTiers cfg total)).filterMap (fun kv =>
          match alookup cfg.strategy_config kv.1 with
          | none => none
          | some scfg =>
            if scfg.risk_tier = tkv.1 ∧ scfg.requires_capital then
              some (LogEvent.assignedToStrategy tkv.1 kv.1
                (tkv.2.available_capital_usdt * (scfg.tier_share_percentage / D)))
            else none)))

/-- `_initialize_allocations(state_dict)`: replace `risk_tiers` and
`strategies` wholesale from `current_total_budget_usdt`, appending the log
events of the three passes. -/
def recalc_allocations (cfg : Config) (s : Ledger) : Ledger :=
  let tiers := computeTiers cfg s.current_total_budget_usdt
  { s with
    risk_tiers := tiers
    strategies := distributeAll cfg tiers (computeStrategies cfg tiers)
    log := appendEvents s.log (recalcLogEvents cfg s.current_total_budget_usdt) }

/-! ## Genesis (`_default_state` + `_initialize_allocations`) -/

/-- `_default_state(initial_budget)`. -/
def default_state (cfg : Config) (b : ℚ) : Ledger :=
  { initial_budget_usdt := b
    current_total_budget_usdt := b
    peak_total_budget_usdt := b
    overall_pnl_usdt := 0
    risk_tiers := []
    strategies := []
    active_positions_by_strategy := cfg.strategy_config.map (fun kv => (kv.1, []))
    circuit_breaker_status := .active
    log := [.initialized b]
    save_count := 0 }

/-- The genesis ledger: `_load_state` with no persisted document synthesises
the default state and runs the allocation engine once. -/
def genesis (cfg : Config) (b : ℚ) : Ledger :=
  recalc_allocations cfg (default_state cfg b)

/-! ## Circuit breaker (`_check_circuit_breakers`) -/

/-- The WARNING events of the per-tier max-loss check (step 3 of
`_check_circuit_breakers`), in tier order. -/
def tierWarnings (tiers : List (String × TierState)) : List LogEvent :=
  tiers.filterMap (fun kv =>
    if kv.2.current_pnl_usdt < 0 ∧ kv.2.max_loss_threshold_usdt ≤ |kv.2.current_pnl_usdt| then
      some (.tierMaxLossWarning kv.1)
    else none)

/-- `_check_circuit_breakers`. Division is exact rational division (the
source would raise `ZeroDivisionError` for a zero `initial_budget_usdt` or
`peak_total_budget_usdt`; all claims concern positive budgets). The final
`elif` branch (reset to `"active"`) is reproduced faithfully; it is dead
code, since a status that is not tripped is already `"active"`. -/
def check_circuit_breakers (s : Ledger) : Ledger :=
  if (3 : ℚ)/10 ≤
      (s.initial_budget_usdt - s.current_total_budget_usdt) / s.initial_budget_usdt then
    if s.circuit_breaker_status ≠ .totalDrawdownInitialTripped then
      { s with circuit_breaker_status := .totalDrawdownInitialTripped
               log := logAppend s.log (.breakerTrippedInitial
                 ((s.initial_budget_usdt - s.current_total_budget_usdt) / s.initial_budget_usdt))
               save_count := s.save_count + 1 }
    else s
  else
    if s.initial_budget_usdt < s.peak_total_budget_usdt ∧ (1 : ℚ)/5 ≤
        (s.peak_total_budget_usdt - s.current_total_budget_usdt) / s.peak_total_budget_usdt then
      if s.circuit_breaker_status ≠ .totalDrawdownPeakTripped then
        { s with circuit_breaker_status := .totalDrawdownPeakTripped
                 log := logAppend s.log (.breakerTrippedPeak
                   ((s.peak_total_budget_usdt - s.current_total_budget_usdt) / s.peak_total_budget_usdt))
                 save_count := s.save_count + 1 }
      else s
    else
      if s.circuit_breaker_status.isTripped then
        { s with log := appendEvents s.log (tierWarnings s.risk_tiers) }
      else if s.circuit_breaker_status ≠ .active then
        { s with circuit_breaker_status := .active
                 log := logAppend (appendEvents s.log (tierWarnings s.risk_tiers)) .breakerReset
                 save_count := s.save_count + 1 }
      else { s with log := appendEvents s.log (tierWarnings s.risk_tiers) }

/-! ## `rebalance_allocations` -/

/-- The peak update of `rebalance_allocations`
(`if current > peak: peak = current`, with its log event). -/
def updatePeak (s : Ledger) : Ledger :=
  if s.peak_total_budget_usdt < s.current_total_budget_usdt then
    { s with peak_total_budget_usdt := s.current_total_budget_usdt
             log := logAppend s.log (.newPeak s.current_total_budget_usdt) }
  else s

/-- The tail of `rebalance_allocations`: the completion log event and the
save. -/
def finishRebalance (s : Ledger) : Ledger :=
  { s with log := logAppend s.log .rebalanceComplete, save_count := s.save_count + 1 }

/-- `rebalance_allocations`: breaker check (tripped only logs a warning and
proceeds), wholesale re-allocation, peak update, final log event and save. -/
def rebalance_allocations (cfg : Config) (s : Ledger) : Ledger :=
  finishRebalance (updatePeak (recalc_allocations cfg (check_circuit_breakers s)))

/-! ## `request_capital_for_trade` -/

/-- The body of `request_capital_for_trade` after the initial breaker
evaluation; `s1` is the state returned by `_check_circuit_breakers`.
The granted amount `min(requested, max_capital_per_trade, available)` is
written out in full at each use (the source binds it once as
`capital_to_allocate`). -/
def requestAux (cfg : Config) (s1 : Ledger) (strat : String)
    (requested : ℚ) (posId : String) : Ledger × Except PyErr ReqResult :=
  if s1.circuit_breaker_status.isTripped then
    ({ s1 with log := logAppend s1.log (.breakerDeniedRequest strat s1.circuit_breaker_status) },
     .ok ⟨false, 0, .breakerTripped strat s1.circuit_breaker_status⟩)
  else
    match alookup s1.strategies strat with
    | none => (s1, .ok ⟨false, 0, .strategyNotFound strat⟩)
    | some ss =>
      match alookup cfg.strategy_config strat with
      | none => (s1, .error .keyError)
      | some scfg =>
        if scfg.requires_capital = false then
          (s1, .ok ⟨true, 0, .noCapitalRequired strat⟩)
        else
          if scfg.max_concurrent_positions ≤ (activeFor s1 strat).length then
            ({ s1 with log := logAppend s1.log (.maxPositionsDenied strat
                  (activeFor s1 strat).length scfg.max_concurrent_positions) },
             .ok ⟨false, 0, .maxPositions strat (activeFor s1 strat).length
               scfg.max_concurrent_positions⟩)
          else
            if min requested (min scfg.max_capital_per_trade_usdt
                ss.available_for_new_positions_usdt) ≤ (1 : ℚ)/100 then
              ({ s1 with log := logAppend s1.log (.insufficientCapital strat
                    ss.available_for_new_positions_usdt requested) },
               .ok ⟨false, 0, .insufficientCapital strat
                 ss.available_for_new_positions_usdt requested⟩)
            else
              ({ s1 with
                  strategies := aupdate s1.strategies strat
                    { ss with
                      available_for_new_positions_usdt :=
                        ss.available_for_new_positions_usdt -
                          min requested (min scfg.max_capital_per_trade_usdt
                            ss.available_for_new_positions_usdt)
                      capital_in_use_usdt :=
                        ss.capital_in_use_usdt +
                          min requested (min scfg.max_capital_per_trade_usdt
                            ss.available_for_new_positions_usdt) }
                  active_positions_by_strategy :=
                    appendPos s1.active_positions_by_strategy strat
                      ⟨posId, round2 (min requested (min scfg.max_capital_per_trade_usdt
                        ss.available_for_new_positions_usdt))⟩
                  log := logAppend s1.log (.approvedRequest strat
                    (min requested (min scfg.max_capital_per_trade_usdt
                      ss.available_for_new_positions_usdt)) posId)
                  save_count := s1.save_count + 1 },
               .ok ⟨true, round2 (min requested (min scfg.max_capital_per_trade_usdt
                   ss.available_for_new_positions_usdt)),
                 .approved (round2 (min requested (min scfg.max_capital_per_trade_usdt
                   ss.available_for_new_positions_usdt))) strat posId⟩)

/-- `request_capital_for_trade(strategy_name, requested_usdt, position_id)`.
Returns the state as mutated by the call together with either the
`(approved, allocated, message)` result or an escaping exception (the
`self.strategy_config[strategy_name]` indexing on line 388 would raise
`KeyError` for a strategy present in the ledger but absent from the static
configuration). -/
def request_capital_for_trade (cfg : Config) (s : Ledger) (strat : String)
    (requested : ℚ) (posId : String) : Ledger × Except PyErr ReqResult :=
  requestAux cfg (check_circuit_breakers s) strat requested posId

/-! ## `report_trade_close` -/

/-- `report_trade_close(strategy_name, position_id, pnl_usdt)`. On a matched
position the source mutates the strategy record and the overall budget and
P&L, then raises `NameError` on line 464 (`strat_cfg` is unbound there), so
the tier P&L update, the trade-closed log event and the save never execute;
the mutations made before the raise survive on the in-memory state. -/
def report_trade_close (s : Ledger) (strat posId : String) (pnl : ℚ) :
    Ledger × Except PyErr Unit :=
  match alookup s.strategies strat with
  | none => (s, .ok ())
  | some ss =>
    match removeFirstPos (activeFor s strat) posId with
    | none =>
      ({ s with log := logAppend s.log (.positionNotFound strat posId)
                save_count := s.save_count + 1 }, .ok ())
    | some (pos, rest) =>
      ({ s with
          strategies := aupdate s.strategies strat
            { ss with
              capital_in_use_usdt := max 0 (ss.capital_in_use_usdt - pos.capital_usdt)
              available_for_new_positions_usdt :=
                ss.available_for_new_positions_usdt + (pos.capital_usdt + pnl)
              current_pnl_usdt := ss.current_pnl_usdt + pnl }
          active_positions_by_strategy :=
            aupdate s.active_positions_by_strategy strat rest
          current_total_budget_usdt := s.current_total_budget_usdt + pnl
          overall_pnl_usdt := s.overall_pnl_usdt + pnl },
       .error .nameError)

/-! ## Operation sequences -/

/-- One external operation on the allocator. -/
inductive Op
  | requestCapital (strat : String) (requested : ℚ) (posId : String)
  | reportTradeClose (strat posId : String) (pnl : ℚ)
  | rebalance
deriving DecidableEq, Repr

/-- The state after an operation (results and escaping exceptions dropped;
the in-memory state survives either way). -/
def applyOp (cfg : Config) (s : Ledger) : Op → Ledger
  | .requestCapital n r p => (request_capital_for_trade cfg s n r p).1
  | .reportTradeClose n p q => (report_trade_close s n p q).1
  | .rebalance => rebalance_allocations cfg s

/-- The state after a sequence of operations. -/
def runOps (cfg : Config) (s : Ledger) (ops : List Op) : Ledger :=
  ops.foldl (applyOp cfg) s

/-! ## The concrete configuration of the source
(`RISK_TIER_CONFIG`, `STRATEGY_CONFIG`, `TOTAL_INITIAL_BUDGET_USDT = 40`). -/

/-- `RISK_TIER_CONFIG` and `STRATEGY_CONFIG` as shipped. -/
def defaultCfg : Config :=
  { risk_tier_config :=
      [("conservative", ⟨3/10, 1/10⟩),
       ("moderate", ⟨4/10, 15/100⟩),
       ("aggressive", ⟨3/10, 25/100⟩)]
    strategy_config :=
      [("pionex_btc_eth_grid", ⟨"conservative", 6/10, 6, 1, true⟩),
       ("defi_stablecoin_yield", ⟨"conservative", 4/10, 4, 1, true⟩),
       ("crypto_rsi_momentum_altcoins", ⟨"moderate", 5/10, 5, 2, true⟩),
       ("github_arbitrage_automation", ⟨"moderate", 25/100, 0, 5, false⟩),
       ("api_wrapper_generation_service", ⟨"moderate", 25/100, 0, 3, false⟩),
       ("memecoin_early_detection_trade", ⟨"aggressive", 7/10, 3, 3, true⟩),
       ("nft_micro_cap_flips", ⟨"aggressive", 3/10, 3, 1, true⟩)] }

/-! ## Concrete states used as test inputs -/

/-- The genesis ledger for the shipped configuration and the $40 budget. -/
def genesis40 : Ledger := genesis defaultCfg 40

/-- `genesis40` with the breaker latched in the drawdown-from-initial tripped
state while the budget is back at $40 (no trip condition holds). -/
def trippedRecovered : Ledger :=
  { genesis40 with circuit_breaker_status := .totalDrawdownInitialTripped }

/-- `genesis40` with the conservative tier's P&L at -$2.00, past its $1.20
max-loss threshold (such a tier P&L enters the source only through a loaded
state document, since the tier P&L update in `report_trade_close` sits after
the `NameError` line and never runs). -/
def tierBreached : Ledger :=
  { genesis40 with risk_tiers := aupdate genesis40.risk_tiers "conservative" ⟨12, 12, -2, 6/5⟩ }

/-- `genesis40` after losing $12: `current_total_budget` at $28.00, exactly
30% below the initial $40. -/
def drawn28 : Ledger := { genesis40 with current_total_budget_usdt := 28 }

/-- `genesis40` at a budget of $40.10 (as after a matched $0.10 profit). -/
def budget4010 : Ledger := { genesis40 with current_total_budget_usdt := 401/10 }

/-- The ledger after, from genesis, requesting $5 for the grid strategy
(approved in full) and closing that position with a $2 profit (the close
mutates the ledger and then raises `NameError`). -/
def pnl2State : Ledger :=
  (report_trade_close
    (request_capital_for_trade defaultCfg genesis40 "pionex_btc_eth_grid" 5 "p1").1
    "pionex_btc_eth_grid" "p1" 2).1

/-! ## Frame lemmas

Each operation touches only the fields its source mutates; these projection
lemmas record the untouched fields. -/

@[simp] theorem check_initial (s : Ledger) :
    (check_circuit_breakers s).initial_budget_usdt = s.initial_budget_usdt := by
  unfold check_circuit_breakers; split_ifs <;> rfl

@[simp] theorem check_current (s : Ledger) :
    (check_circuit_breakers s).current_total_budget_usdt = s.current_total_budget_usdt := by
  unfold check_circuit_breakers; split_ifs <;> rfl

@[simp] theorem check_peak (s : Ledger) :
    (check_circuit_breakers s).peak_total_budget_usdt = s.peak_total_budget_usdt := by
  unfold check_circuit_breakers; split_ifs <;> rfl

@[simp] theorem check_overall (s : Ledger) :
    (check_circuit_breakers s).overall_pnl_usdt = s.overall_pnl_usdt := by
  unfold check_circuit_breakers; split_ifs <;> rfl

@[simp] theorem check_tiers (s : Ledger) :
    (check_circuit_breakers s).risk_tiers = s.risk_tiers := by
  unfold check_circuit_breakers; split_ifs <;> rfl

@[simp] theorem check_strats (s : Ledger) :
    (check_circuit_breakers s).strategies = s.strategies := by
  unfold check_circuit_breakers; split_ifs <;> rfl

@[simp] theorem check_positions (s : Ledger) :
    (check_circuit_breakers s).active_positions_by_strategy
      = s.active_positions_by_strategy := by
  unfold check_circuit_breakers; split_ifs <;> rfl

@[simp] theorem recalc_initial (cfg : Config) (s : Ledger) :
    (recalc_allocations cfg s).initial_budget_usdt = s.initial_budget_usdt := rfl

@[simp] theorem recalc_current (cfg : Config) (s : Ledger) :
    (recalc_allocations cfg s).current_total_budget_usdt
      = s.current_total_budget_usdt := rfl

@[simp] theorem recalc_peak (cfg : Config) (s : Ledger) :
    (recalc_allocations cfg s).peak_total_budget_usdt = s.peak_total_budget_usdt := rfl

@[simp] theorem recalc_overall (cfg : Config) (s : Ledger) :
    (recalc_allocations cfg s).overall_pnl_usdt = s.overall_pnl_usdt := rfl

@[simp] theorem recalc_positions (cfg : Config) (s : Ledger) :
    (recalc_allocations cfg s).active_positions_by_strategy
      = s.active_positions_by_strategy := rfl

@[simp] theorem recalc_status (cfg : Config) (s : Ledger) :
    (recalc_allocations cfg s).circuit_breaker_status = s.circuit_breaker_status := rfl

@[simp] theorem recalc_tiers (cfg : Config) (s : Ledger) :
    (recalc_allocations cfg s).risk_tiers
      = computeTiers cfg s.current_total_budget_usdt := rfl

@[simp] theorem recalc_strats (cfg : Config) (s : Ledger) :
    (recalc_allocations cfg s).strategies
      = distributeAll cfg (computeTiers cfg s.current_total_budget_usdt)
          (computeStrategies cfg (computeTiers cfg s.current_total_budget_usdt)) := rfl

@[simp] theorem updatePeak_initial (s : Ledger) :
    (updatePeak s).initial_budget_usdt = s.initial_budget_usdt := by
  unfold updatePeak; split_ifs <;> rfl

@[simp] theorem updatePeak_current (s : Ledger) :
    (updatePeak s).current_total_budget_usdt = s.current_total_budget_usdt := by
  unfold updatePeak; split_ifs <;> rfl

@[simp] theorem updatePeak_overall (s : Ledger) :
    (updatePeak s).overall_pnl_usdt = s.overall_pnl_usdt := by
  unfold updatePeak; split_ifs <;> rfl

@[simp] theorem updatePeak_tiers (s : Ledger) :
    (updatePeak s).risk_tiers = s.risk_tiers := by
  unfold updatePeak; split_ifs <;> rfl

@[simp] theorem updatePeak_strats (s : Ledger) :
    (updatePeak s).strategies = s.strategies := by
  unfold updatePeak; split_ifs <;> rfl

@[simp] theorem updatePeak_positions (s : Ledger) :
    (updatePeak s).active_positions_by_strategy = s.active_positions_by_strategy := by
  unfold updatePeak; split_ifs <;> rfl

@[simp] theorem finishRebalance_initial (s : Ledger) :
    (finishRebalance s).initial_budget_usdt = s.initial_budget_usdt := rfl

@[simp] theorem finishRebalance_current (s : Ledger) :
    (finishRebalance s).current_total_budget_usdt = s.current_total_budget_usdt := rfl

@[simp] theorem finishRebalance_overall (s : Ledger) :
    (finishRebalance s).overall_pnl_usdt = s.overall_pnl_usdt := rfl

@[simp] theorem finishRebalance_tiers (s : Ledger) :
    (finishRebalance s).risk_tiers = s.risk_tiers := rfl

@[simp] theorem finishRebalance_strats (s : Ledger) :
    (finishRebalance s).strategies = s.strategies := rfl

@[simp] theorem finishRebalance_positions (s : Ledger) :
    (finishRebalance s).active_positions_by_strategy
      = s.active_positions_by_strategy := rfl

@[simp] theorem rebalance_initial (cfg : Config) (s : Ledger) :
    (rebalance_allocations cfg s).initial_budget_usdt = s.initial_budget_usdt := by
  unfold rebalance_allocations; simp

@[simp] theorem rebalance_current (cfg : Config) (s : Ledger) :
    (rebalance_allocations cfg s).current_total_budget_usdt
      = s.current_total_budget_usdt := by
  unfold rebalance_allocations; simp

@[simp] theorem rebalance_overall (cfg : Config) (s : Ledger) :
    (rebalance_allocations cfg s).overall_pnl_usdt = s.overall_pnl_usdt := by
  unfold rebalance_allocations; simp

@[simp] theorem rebalance_positions (cfg : Config) (s : Ledger) :
    (rebalance_allocations cfg s).active_positions_by_strategy
      = s.active_positions_by_strategy := by
  unfold rebalance_allocations; simp

@[simp] theorem rebalance_tiers (cfg : Config) (s : Ledger) :
    (rebalance_allocations cfg s).risk_tiers
      = computeTiers cfg s.current_total_budget_usdt := by
  unfold rebalance_allocations; simp

@[simp] theorem rebalance_strats (cfg : Config) (s : Ledger) :
    (rebalance_allocations cfg s).strategies
      = distributeAll cfg (computeTiers cfg s.current_total_budget_usdt)
          (computeStrategies cfg (computeTiers cfg s.current_total_budget_usdt)) := by
  unfold rebalance_allocations; simp

theorem requestAux_initial (cfg : Config) (s1 : Ledger) (strat : String) (req : ℚ)
    (posId : String) :
    (requestAux cfg s1 strat req posId).1.initial_budget_usdt
      = s1.initial_budget_usdt := by
  unfold requestAux
  repeat' split
  all_goals rfl

theorem requestAux_current (cfg : Config) (s1 : Ledger) (strat : String) (req : ℚ)
    (posId : String) :
    (requestAux cfg s1 strat req posId).1.current_total_budget_usdt
      = s1.current_total_budget_usdt := by
  unfold requestAux
  repeat' split
  all_goals rfl

theorem requestAux_overall (cfg : Config) (s1 : Ledger) (strat : String) (req : ℚ)
    (posId : String) :
    (requestAux cfg s1 strat req posId).1.overall_pnl_usdt
      = s1.overall_pnl_usdt := by
  unfold requestAux
  repeat' split
  all_goals rfl

theorem request_initial (cfg : Config) (s : Ledger) (strat : String) (req : ℚ)
    (posId : String) :
    (request_capital_for_trade cfg s strat req posId).1.initial_budget_usdt
      = s.initial_budget_usdt := by
  unfold request_capital_for_trade
  rw [requestAux_initial, check_initial]

theorem request_current (cfg : Config) (s : Ledger) (strat : String) (req : ℚ)
    (posId : String) :
    (request_capital_for_trade cfg s strat req posId).1.current_total_budget_usdt
      = s.current_total_budget_usdt := by
  unfold request_capital_for_trade
  rw [requestAux_current, check_current]

theorem request_overall (cfg : Config) (s : Ledger) (strat : String) (req : ℚ)
    (posId : String) :
    (request_capital_for_trade cfg s strat req posId).1.overall_pnl_usdt
      = s.overall_pnl_usdt := by
  unfold request_capital_for_trade
  rw [requestAux_overall, check_overall]

theorem report_initial (s : Ledger) (strat posId : String) (pnl : ℚ) :
    (report_trade_close s strat posId pnl).1.initial_budget_usdt
      = s.initial_budget_usdt := by
  unfold report_trade_close
  repeat' split
  all_goals rfl

/-- `report_trade_close` moves `current_total_budget_usdt` and
`overall_pnl_usdt` together: by `pnl` on a matched position, not at all
otherwise. -/
theorem report_delta (s : Ledger) (strat posId : String) (pnl : ℚ) :
    ((report_trade_close s strat posId pnl).1.current_total_budget_usdt
        = s.current_total_budget_usdt + pnl
      ∧ (report_trade_close s strat posId pnl).1.overall_pnl_usdt
        = s.overall_pnl_usdt + pnl)
    ∨ ((report_trade_close s strat posId pnl).1.current_total_budget_usdt
        = s.current_total_budget_usdt
      ∧ (report_trade_close s strat posId pnl).1.overall_pnl_usdt
        = s.overall_pnl_usdt) := by
  unfold report_trade_close
  split
  · exact .inr ⟨rfl, rfl⟩
  · split
    · exact .inr ⟨rfl, rfl⟩
    · exact .inl ⟨rfl, rfl⟩

/-- Conservation of `current = initial + overall` is preserved by every
operation. -/
theorem applyOp_conserves (cfg : Config) (s : Ledger) (op : Op)
    (h : s.current_total_budget_usdt = s.initial_budget_usdt + s.overall_pnl_usdt) :
    (applyOp cfg s op).current_total_budget_usdt
      = (applyOp cfg s op).initial_budget_usdt + (applyOp cfg s op).overall_pnl_usdt := by
  cases op with
  | requestCapital n r p =>
    simp only [applyOp, request_current, request_initial, request_overall]
    exact h
  | reportTradeClose n p q =>
    simp only [applyOp, report_initial]
    rcases report_delta s n p q with ⟨h1, h2⟩ | ⟨h1, h2⟩ <;> rw [h1, h2] <;> linarith
  | rebalance =>
    simp only [applyOp, rebalance_current, rebalance_initial, rebalance_overall]
    exact h

/-- Conservation is preserved by every operation sequence. -/
theorem runOps_conserves (cfg : Config) (ops : List Op) (s : Ledger)
    (h : s.current_total_budget_usdt = s.initial_budget_usdt + s.overall_pnl_usdt) :
    (runOps cfg s ops).current_total_budget_usdt
      = (runOps cfg s ops).initial_budget_usdt + (runOps cfg s ops).overall_pnl_usdt := by
  induction ops generalizing s with
  | nil => exact h
  | cons op rest ih =>
    simp only [runOps, List.foldl_cons]
    exact ih (applyOp cfg s op) (applyOp_conserves cfg s op h)

/-- The genesis ledger satisfies conservation. -/
theorem genesis_conserves (cfg : Config) (b : ℚ) :
    (genesis cfg b).current_total_budget_usdt
      = (genesis cfg b).initial_budget_usdt + (genesis cfg b).overall_pnl_usdt := by
  simp [genesis, default_state]

/-- C1. Budget conservation: after every operation sequence from a genesis
ledger, `current_total_budget == initial_budget + overall_pnl`, where
`overall_pnl` is exactly the running sum of the `pnl` amounts applied by
matched `report_trade_close` calls: `report_trade_close` moves the budget
and `overall_pnl` together by `pnl` (matched position) or not at all, and
`request_capital_for_trade` and `rebalance_allocations` change neither the
budget nor `overall_pnl`. -/
theorem budget_conservation (cfg : Config) (b : ℚ) (ops : List Op) :
    ((runOps cfg (genesis cfg b) ops).current_total_budget_usdt
      = (runOps cfg (genesis cfg b) ops).initial_budget_usdt
        + (runOps cfg (genesis cfg b) ops).overall_pnl_usdt)
    ∧ (∀ s : Ledger,
        (rebalance_allocations cfg s).current_total_budget_usdt
            = s.current_total_budget_usdt
        ∧ (rebalance_allocations cfg s).overall_pnl_usdt = s.overall_pnl_usdt)
    ∧ (∀ (s : Ledger) (strat : String) (req : ℚ) (posId : String),
        (request_capital_for_trade cfg s strat req posId).1.current_total_budget_usdt
            = s.current_total_budget_usdt
        ∧ (request_capital_for_trade cfg s strat req posId).1.overall_pnl_usdt
            = s.overall_pnl_usdt)
    ∧ (∀ (s : Ledger) (strat posId : String) (pnl : ℚ),
        ((report_trade_close s strat posId pnl).1.current_total_budget_usdt
            = s.current_total_budget_usdt + pnl
          ∧ (report_trade_close s strat posId pnl).1.overall_pnl_usdt
            = s.overall_pnl_usdt + pnl)
        ∨ ((report_trade_close s strat posId pnl).1.current_total_budget_usdt
            = s.current_total_budget_usdt
          ∧ (report_trade_close s strat posId pnl).1.overall_pnl_usdt
            = s.overall_pnl_usdt)) := by
  refine ⟨runOps_conserves cfg ops (genesis cfg b) (genesis_conserves cfg b),
    fun s => ⟨rebalance_current cfg s, rebalance_overall cfg s⟩,
    fun s strat req posId => ⟨request_current cfg s strat req posId,
      request_overall cfg s strat req posId⟩,
    fun s strat posId pnl => report_delta s strat posId pnl⟩

/-- C9. Rebalance idempotence: a second `rebalance_allocations` with no
intervening trade activity reproduces the same `risk_tiers` and `strategies`
tables, and neither call changes `current_total_budget` or `overall_pnl`. -/
theorem rebalance_idempotent (cfg : Config) (s : Ledger) :
    ((rebalance_allocations cfg (rebalance_allocations cfg s)).risk_tiers
      = (rebalance_allocations cfg s).risk_tiers)
    ∧ ((rebalance_allocations cfg (rebalance_allocations cfg s)).strategies
      = (rebalance_allocations cfg s).strategies)
    ∧ ((rebalance_allocations cfg s).current_total_budget_usdt
      = s.current_total_budget_usdt)
    ∧ ((rebalance_allocations cfg s).overall_pnl_usdt = s.overall_pnl_usdt)
    ∧ ((rebalance_allocations cfg (rebalance_allocations cfg s)).current_total_budget_usdt
      = s.current_total_budget_usdt)
    ∧ ((rebalance_allocations cfg (rebalance_allocations cfg s)).overall_pnl_usdt
      = s.overall_pnl_usdt) := by
  refine ⟨?_, ?_, rebalance_current cfg s, rebalance_overall cfg s, ?_, ?_⟩
  · rw [rebalance_tiers, rebalance_tiers, rebalance_current]
  · rw [rebalance_strats, rebalance_strats, rebalance_current]
  · rw [rebalance_current, rebalance_current]
  · rw [rebalance_overall, rebalance_overall]

/-- C2. Evidence at the failing input: from genesis, approve $5 for
`"pionex_btc_eth_grid"` as position `"p1"`, then report its close with
`pnl = 1`. The close finds the position, mutates the strategy record, the
total budget ($41) and `overall_pnl` ($1), and then raises `NameError`
(line 464 reads the unbound `strat_cfg`), so the owning tier's
`current_pnl` stays 0 and no save happens (the save count stays at the one
save made by the approval). -/
theorem report_close_raises_name_error :
    (report_trade_close
        (request_capital_for_trade defaultCfg genesis40 "pionex_btc_eth_grid" 5 "p1").1
        "pionex_btc_eth_grid" "p1" 1).2 = .error .nameError
    ∧ (alookup (report_trade_close
        (request_capital_for_trade defaultCfg genesis40 "pionex_btc_eth_grid" 5 "p1").1
        "pionex_btc_eth_grid" "p1" 1).1.risk_tiers "conservative").map
          (·.current_pnl_usdt) = some 0
    ∧ (report_trade_close
        (request_capital_for_trade defaultCfg genesis40 "pionex_btc_eth_grid" 5 "p1").1
        "pionex_btc_eth_grid" "p1" 1).1.current_total_budget_usdt = 41
    ∧ (report_trade_close
        (request_capital_for_trade defaultCfg genesis40 "pionex_btc_eth_grid" 5 "p1").1
        "pionex_btc_eth_grid" "p1" 1).1.overall_pnl_usdt = 1
    ∧ (report_trade_close
        (request_capital_for_trade defaultCfg genesis40 "pionex_btc_eth_grid" 5 "p1").1
        "pionex_btc_eth_grid" "p1" 1).1.save_count = 1 := by
  with_unfolding_all decide

/-- C3 counterexample: in `trippedRecovered` the budget is back at $40, so
neither drawdown condition holds, yet after the breaker evaluation the
status is still the tripped one (not ACTIVE), and the next capital request
is denied citing it — the auto-reset branch of the source is dead code. -/
theorem breaker_no_auto_reset_cex :
    (trippedRecovered.initial_budget_usdt - trippedRecovered.current_total_budget_usdt)
        / trippedRecovered.initial_budget_usdt < 3/10
    ∧ ¬ (trippedRecovered.initial_budget_usdt < trippedRecovered.peak_total_budget_usdt)
    ∧ trippedRecovered.circuit_breaker_status = .totalDrawdownInitialTripped
    ∧ (check_circuit_breakers trippedRecovered).circuit_breaker_status
        = .totalDrawdownInitialTripped
    ∧ (request_capital_for_trade defaultCfg trippedRecovered "pionex_btc_eth_grid" 5 "p9").2
        = .ok ⟨false, 0, .breakerTripped "pionex_btc_eth_grid" .totalDrawdownInitialTripped⟩ := by
  with_unfolding_all decide

/-- C4 counterexample: in `pnl2State` the grid strategy's `current_pnl` is
$2, but after a rebalance it is 0 — rebalance resets the per-strategy P&L
accumulator instead of carrying it forward. -/
theorem rebalance_resets_pnl_cex :
    (alookup pnl2State.strategies "pionex_btc_eth_grid").map (·.current_pnl_usdt) = some 2
    ∧ (alookup (rebalance_allocations defaultCfg pnl2State).strategies
        "pionex_btc_eth_grid").map (·.current_pnl_usdt) = some 0 := by
  with_unfolding_all decide

set_option maxRecDepth 4000 in
/-- C6 counterexample: from genesis, requesting $2.556 for the grid strategy
(max per trade $6, available $7.20) has `granted = min(2.556, 6, 7.2) =
2.556`, but the call returns $2.56 and records a position of $2.56 — the
returned and stored amount is the rounded `round(granted, 2)`, not
`granted`. -/
theorem grant_rounding_cex :
    (request_capital_for_trade defaultCfg genesis40 "pionex_btc_eth_grid" (2556/1000) "p1").2
      = .ok ⟨true, 64/25, .approved (64/25) "pionex_btc_eth_grid" "p1"⟩
    ∧ alookup (request_capital_for_trade defaultCfg genesis40 "pionex_btc_eth_grid"
        (2556/1000) "p1").1.active_positions_by_strategy "pionex_btc_eth_grid"
      = some [⟨"p1", 64/25⟩]
    ∧ min ((2556:ℚ)/1000) (min 6 (36/5)) = 2556/1000
    ∧ ((64:ℚ)/25) ≠ 2556/1000 := by
  with_unfolding_all decide

set_option maxRecDepth 4000 in
/-- C8 counterexample: at a total budget of $40.10 the conservative tier's
available capital is $12.03, and the grid strategy's share is 0.6 of a
capital-requiring total of 1.0, so the claimed allocation is 12.03 x 0.6 =
7.218; the engine stores the rounded $7.22 instead. -/
theorem allocation_rounding_cex :
    (alookup (rebalance_allocations defaultCfg budget4010).risk_tiers "conservative").map
        (·.available_capital_usdt) = some (1203/100)
    ∧ (alookup (rebalance_allocations defaultCfg budget4010).strategies
        "pionex_btc_eth_grid").map (·.allocated_capital_usdt) = some (361/50)
    ∧ ((1203:ℚ)/100) * ((6/10) / ((6/10) + (4/10))) ≠ 361/50 := by
  with_unfolding_all decide

/-- C10 counterexample: in `tierBreached` the breaker evaluates to ACTIVE,
and a capital request for the non-capital strategy
`"github_arbitrage_automation"` is approved with $0 — but the ledger is not
left unchanged: the breaker evaluation run by the request appends the
conservative tier's max-loss WARNING to the event log. -/
theorem noncapital_request_logs_cex :
    (request_capital_for_trade defaultCfg tierBreached "github_arbitrage_automation" 1 "p1").2
      = .ok ⟨true, 0, .noCapitalRequired "github_arbitrage_automation"⟩
    ∧ (request_capital_for_trade defaultCfg tierBreached
        "github_arbitrage_automation" 1 "p1").1.log ≠ tierBreached.log
    ∧ (check_circuit_breakers tierBreached).circuit_breaker_status = .active := by
  with_unfolding_all decide

/-- A breaker status is not tripped exactly when it is ACTIVE. -/
theorem isTripped_false_iff (b : BreakerStatus) :
    b.isTripped = false ↔ b = .active := by
  cases b <;> simp [BreakerStatus.isTripped]

/-- C3 (amended). The breaker never auto-resets: whenever the status is a
tripped state before `_check_circuit_breakers`, it is still a tripped state
afterwards, whatever the budget — recovery of `current_total_budget` does
not return the status to ACTIVE (the reset branch of the source is dead
code, and its own comment says a manual reset is required). -/
theorem breaker_stays_tripped (s : Ledger)
    (h : s.circuit_breaker_status ≠ .active) :
    (check_circuit_breakers s).circuit_breaker_status ≠ .active := by
  unfold check_circuit_breakers
  split_ifs
  all_goals first | exact h | simp_all [isTripped_false_iff]

/-- Witness for `breaker_stays_tripped` at `trippedRecovered`. -/
theorem breaker_stays_tripped_witness :
    trippedRecovered.circuit_breaker_status ≠ .active
    ∧ (check_circuit_breakers trippedRecovered).circuit_breaker_status ≠ .active :=
  ⟨by with_unfolding_all decide,
   breaker_stays_tripped trippedRecovered (by with_unfolding_all decide)⟩

/-- When the drawdown from the initial budget is at least 30%, the breaker
evaluation ends in the drawdown-from-initial tripped state. -/
theorem check_trips_initial (s : Ledger)
    (h : (3:ℚ)/10 ≤ (s.initial_budget_usdt - s.current_total_budget_usdt)
        / s.initial_budget_usdt) :
    (check_circuit_breakers s).circuit_breaker_status
      = .totalDrawdownInitialTripped := by
  unfold check_circuit_breakers
  split_ifs
  all_goals first | rfl | simp_all

/-- C5. Breaker trip blocks capital requests: whenever
`(initial - current) / initial >= 0.30`, `request_capital_for_trade` for
every strategy returns `(approved = false, granted = 0)` with the message
citing the drawdown-from-initial tripped state, as a normal return value
(no exception). -/
theorem breaker_blocks_requests (cfg : Config) (s : Ledger) (strat : String)
    (req : ℚ) (posId : String)
    (h : (3:ℚ)/10 ≤ (s.initial_budget_usdt - s.current_total_budget_usdt)
        / s.initial_budget_usdt) :
    (request_capital_for_trade cfg s strat req posId).2
      = .ok ⟨false, 0, .breakerTripped strat .totalDrawdownInitialTripped⟩ := by
  unfold request_capital_for_trade requestAux
  rw [check_trips_initial s h]
  simp [BreakerStatus.isTripped]

/-- Witness for `breaker_blocks_requests`: the spec's scenario
(`initial = 40`, `current = 28`, a 30% drawdown). -/
theorem breaker_blocks_requests_witness :
    (3:ℚ)/10 ≤ (drawn28.initial_budget_usdt - drawn28.current_total_budget_usdt)
        / drawn28.initial_budget_usdt
    ∧ (request_capital_for_trade defaultCfg drawn28 "pionex_btc_eth_grid" 5 "p1").2
      = .ok ⟨false, 0, .breakerTripped "pionex_btc_eth_grid" .totalDrawdownInitialTripped⟩ :=
  ⟨by with_unfolding_all decide,
   breaker_blocks_requests defaultCfg drawn28 "pionex_btc_eth_grid" 5 "p1"
     (by with_unfolding_all decide)⟩

/-! ## Association-list lemmas -/

theorem alookup_aupdate_ne {β : Type} (l : List (String × β)) (n m : String) (b : β)
    (h : n ≠ m) : alookup (aupdate l n b) m = alookup l m := by
  induction l with
  | nil => rfl
  | cons kv rest ih =>
    obtain ⟨k, v⟩ := kv
    simp only [aupdate]
    by_cases hk : k = n
    · subst hk
      simp only [if_pos rfl, alookup]
      rw [if_neg h, if_neg h]
    · simp only [if_neg hk, alookup]
      by_cases hm : k = m
      · simp [hm]
      · simp [hm, ih]

theorem alookup_aupdate_self {β : Type} (l : List (String × β)) (n : String) (b v : β)
    (h : alookup l n = some v) : alookup (aupdate l n b) n = some b := by
  induction l with
  | nil => simp [alookup] at h
  | cons kv rest ih =>
    obtain ⟨k, w⟩ := kv
    simp only [aupdate]
    by_cases hk : k = n
    · simp [if_pos hk, alookup, hk]
    · simp only [alookup, if_neg hk] at h
      simp only [if_neg hk, alookup]
      exact ih h

theorem alookup_appendPos_self (l : List (String × List Position)) (n : String)
    (p : Position) :
    alookup (appendPos l n p) n = some ((alookup l n).getD [] ++ [p]) := by
  induction l with
  | nil => simp [appendPos, alookup]
  | cons kv rest ih =>
    obtain ⟨k, v⟩ := kv
    simp only [appendPos]
    by_cases hk : k = n
    · simp [if_pos hk, alookup, hk]
    · simp only [if_neg hk, alookup]
      exact ih

theorem alookup_appendPos_ne (l : List (String × List Position)) (n m : String)
    (p : Position) (h : n ≠ m) : alookup (appendPos l n p) m = alookup l m := by
  induction l with
  | nil => simp [appendPos, alookup, h]
  | cons kv rest ih =>
    obtain ⟨k, v⟩ := kv
    simp only [appendPos]
    by_cases hk : k = n
    · subst hk
      simp only [if_pos rfl, alookup]
      rw [if_neg h, if_neg h]
    · simp only [if_neg hk, alookup]
      by_cases hm : k = m
      · simp [hm]
      · simp [hm, ih]

theorem removeFirstPos_length (l : List Position) (pid : String)
    (pr : Position × List Position) (h : removeFirstPos l pid = some pr) :
    pr.2.length + 1 = l.length := by
  induction l generalizing pr with
  | nil => simp [removeFirstPos] at h
  | cons q qs ih =>
    simp only [removeFirstPos] at h
    by_cases hq : q.id = pid
    · rw [if_pos hq] at h
      cases h
      simp
    · rw [if_neg hq] at h
      cases hr : removeFirstPos qs pid with
      | none => rw [hr] at h; simp at h
      | some pr' =>
        rw [hr] at h
        simp only [Option.map_some'] at h
        cases h
        have := ih pr' hr
        simp [← this]
theorem alookup_map_nil (l : List (String × StratCfg)) (n : String) :
    (alookup (l.map (fun kv => (kv.1, ([] : List Position)))) n).getD [] = [] := by
  induction l with
  | nil => rfl
  | cons kv rest ih =>
    by_cases hk : kv.1 = n <;> simp [alookup, hk, ih]

/-- Every strategy starts with no active positions at genesis. -/
theorem genesis_activeFor (cfg : Config) (b : ℚ) (n : String) :
    activeFor (genesis cfg b) n = [] := by
  unfold genesis activeFor
  rw [recalc_positions]
  exact alookup_map_nil cfg.strategy_config n

/-- `report_trade_close` never lengthens any strategy's active-position
list. -/
theorem report_activeFor_le (s : Ledger) (n posId : String) (pnl : ℚ) (m : String) :
    (activeFor (report_trade_close s n posId pnl).1 m).length
      ≤ (activeFor s m).length := by
  unfold report_trade_close
  split
  · exact le_refl _
  · split
    · exact le_refl _
    · rename_i ss hss pos rest hpr
      show ((alookup (aupdate s.active_positions_by_strategy n rest) m).getD []).length
        ≤ (activeFor s m).length
      by_cases hm : n = m
      · subst hm
        cases hl : alookup s.active_positions_by_strategy n with
        | none =>
          have : activeFor s n = [] := by simp [activeFor, hl]
          rw [this] at hpr
          simp [removeFirstPos] at hpr
        | some l0 =>
          rw [alookup_aupdate_self _ _ _ _ hl]
          have hl0 : activeFor s n = l0 := by simp [activeFor, hl]
          have hlen : rest.length + 1 = l0.length := by
            simpa [hl0] using removeFirstPos_length _ _ _ hpr
          rw [hl0]
          simp only [Option.getD_some]
          omega
      · rw [alookup_aupdate_ne _ _ _ _ hm]
        exact le_refl _

/-- `request_capital_for_trade` preserves the per-strategy position bound
taken from the static configuration: a rejected call leaves lists unchanged
and an approved call appends one position only under the strict
`max_concurrent_positions` guard. -/
theorem request_preserves_posLimit (cfg : Config) (s : Ledger) (strat : String)
    (req : ℚ) (posId : String) (n : String) (scfg : StratCfg)
    (hc : alookup cfg.strategy_config n = some scfg)
    (h : (activeFor s n).length ≤ scfg.max_concurrent_positions) :
    (activeFor (request_capital_for_trade cfg s strat req posId).1 n).length
      ≤ scfg.max_concurrent_positions := by
  have hpos : (check_circuit_breakers s).active_positions_by_strategy
      = s.active_positions_by_strategy := check_positions s
  have hact : ∀ m, activeFor (check_circuit_breakers s) m = activeFor s m := by
    intro m; unfold activeFor; rw [hpos]
  unfold request_capital_for_trade requestAux
  repeat' split
  all_goals try simpa [activeFor, hpos] using h
  -- approval branch: positions become an `appendPos`
  rename_i ss hss scfg2 hc2 hreq hmax hdust
  show ((alookup (appendPos (check_circuit_breakers s).active_positions_by_strategy
      strat _) n).getD []).length ≤ scfg.max_concurrent_positions
  by_cases hm : strat = n
  · subst hm
    rw [hpos, alookup_appendPos_self]
    have hsc : scfg2 = scfg := by
      rw [hc] at hc2; exact (Option.some.injEq _ _).mp hc2.symm
    rw [hact strat] at hmax
    subst hsc
    have : (activeFor s strat).length < scfg2.max_concurrent_positions := by
      omega
    show ((activeFor s strat) ++ [_]).length ≤ scfg2.max_concurrent_positions
    simp only [List.length_append, List.length_cons, List.length_nil]
    omega
  · rw [hpos, alookup_appendPos_ne _ _ _ _ hm]
    exact h

/-- A capital-requiring strategy already at (or beyond) its concurrency
limit is always rejected. -/
theorem request_rejects_at_max (cfg : Config) (s : Ledger) (strat : String)
    (req : ℚ) (posId : String) (scfg : StratCfg) (res : ReqResult)
    (hc : alookup cfg.strategy_config strat = some scfg)
    (hreq : scfg.requires_capital = true)
    (hmax : scfg.max_concurrent_positions ≤ (activeFor s strat).length)
    (hres : (request_capital_for_trade cfg s strat req posId).2 = .ok res) :
    res.approved = false := by
  have hact : activeFor (check_circuit_breakers s) strat = activeFor s strat := by
    unfold activeFor; rw [check_positions]
  unfold request_capital_for_trade requestAux at hres
  repeat' split at hres
  all_goals try (cases hres; rfl)
  all_goals simp_all [hact]

/-- A call that does not approve (including a `KeyError`) leaves every
active-position list unchanged; only an approval touches them. -/
theorem request_positions_cases (cfg : Config) (s : Ledger) (strat : String)
    (req : ℚ) (posId : String) :
    ((request_capital_for_trade cfg s strat req posId).1.active_positions_by_strategy
        = s.active_positions_by_strategy)
    ∨ (∃ res, (request_capital_for_trade cfg s strat req posId).2 = .ok res
        ∧ res.approved = true) := by
  unfold request_capital_for_trade requestAux
  repeat' split
  all_goals try (exact .inl (check_positions s))
  all_goals exact .inr ⟨_, rfl, rfl⟩

/-- Every operation preserves the per-strategy position bound. -/
theorem applyOp_posLimit (cfg : Config) (op : Op) (s : Ledger) (n : String)
    (scfg : StratCfg) (hc : alookup cfg.strategy_config n = some scfg)
    (h : (activeFor s n).length ≤ scfg.max_concurrent_positions) :
    (activeFor (applyOp cfg s op) n).length ≤ scfg.max_concurrent_positions := by
  cases op with
  | requestCapital strat req posId =>
    exact request_preserves_posLimit cfg s strat req posId n scfg hc h
  | reportTradeClose strat posId pnl =>
    exact le_trans (report_activeFor_le s strat posId pnl n) h
  | rebalance =>
    show (activeFor (rebalance_allocations cfg s) n).length ≤ _
    unfold activeFor
    rw [rebalance_positions]
    exact h

/-- Every operation sequence preserves the per-strategy position bound. -/
theorem runOps_posLimit (cfg : Config) (ops : List Op) (s : Ledger) (n : String)
    (scfg : StratCfg) (hc : alookup cfg.strategy_config n = some scfg)
    (h : (activeFor s n).length ≤ scfg.max_concurrent_positions) :
    (activeFor (runOps cfg s ops) n).length ≤ scfg.max_concurrent_positions := by
  induction ops generalizing s with
  | nil => exact h
  | cons op rest ih =>
    simp only [runOps, List.foldl_cons]
    exact ih (applyOp cfg s op) (applyOp_posLimit cfg op s n scfg hc h)

/-- C7. Position-limit enforcement: for every configured strategy and every
operation sequence from genesis, the strategy's active-position count never
exceeds its `max_concurrent_positions`; a capital-requiring strategy at (or
beyond) the limit is rejected by `request_capital_for_trade`; and a call
that does not approve leaves all active-position lists unchanged (only an
approval appends a position). -/
theorem position_limit_invariant (cfg : Config) (b : ℚ) (ops : List Op)
    (strat : String) (scfg : StratCfg)
    (hc : alookup cfg.strategy_config strat = some scfg) :
    ((activeFor (runOps cfg (genesis cfg b) ops) strat).length
        ≤ scfg.max_concurrent_positions)
    ∧ (∀ (s : Ledger) (req : ℚ) (posId : String) (res : ReqResult),
        scfg.requires_capital = true →
        scfg.max_concurrent_positions ≤ (activeFor s strat).length →
        (request_capital_for_trade cfg s strat req posId).2 = .ok res →
        res.approved = false)
    ∧ (∀ (s : Ledger) (nm : String) (req : ℚ) (posId : String),
        ((request_capital_for_trade cfg s nm req posId).1.active_positions_by_strategy
          = s.active_positions_by_strategy)
        ∨ (∃ res, (request_capital_for_trade cfg s nm req posId).2 = .ok res
            ∧ res.approved = true)) := by
  refine ⟨?_, ?_, ?_⟩
  · apply runOps_posLimit cfg ops (genesis cfg b) strat scfg hc
    rw [genesis_activeFor]
    exact Nat.zero_le _
  · intro s req posId res hreq hmax hres
    exact request_rejects_at_max cfg s strat req posId scfg res hc hreq hmax hres
  · intro s nm req posId
    exact request_positions_cases cfg s nm req posId

/-- Witness for `position_limit_invariant`: the grid strategy
(`max_concurrent_positions = 1`) after two requests from genesis — the
second is rejected and only one position is active. -/
theorem position_limit_invariant_witness :
    alookup defaultCfg.strategy_config "pionex_btc_eth_grid"
        = some ⟨"conservative", 6/10, 6, 1, true⟩
    ∧ (activeFor (runOps defaultCfg (genesis defaultCfg 40)
        [.requestCapital "pionex_btc_eth_grid" 5 "p1",
         .requestCapital "pionex_btc_eth_grid" 5 "p2"]) "pionex_btc_eth_grid").length
      ≤ (⟨"conservative", 6/10, 6, 1, true⟩ : StratCfg).max_concurrent_positions :=
  ⟨by with_unfolding_all decide,
   (position_limit_invariant defaultCfg 40
      [.requestCapital "pionex_btc_eth_grid" 5 "p1",
       .requestCapital "pionex_btc_eth_grid" 5 "p2"]
      "pionex_btc_eth_grid" ⟨"conservative", 6/10, 6, 1, true⟩
      (by with_unfolding_all decide)).1⟩

/-! ## Generic lookup lemmas over built tables -/

/-- `alookup` on a cons cell, stated for an arbitrary (not necessarily
literal) pair. -/
theorem alookup_cons {β : Type} (p : String × β) (t : List (String × β)) (n : String) :
    alookup (p :: t) n = if p.1 = n then some p.2 else alookup t n := rfl

/-- `distributeEntry` preserves the key. -/
theorem distributeEntry_key (cfg : Config) (tn : String) (av D : ℚ)
    (kv : String × StratState) : (distributeEntry cfg tn av D kv).1 = kv.1 := by
  unfold distributeEntry
  repeat' split
  all_goals rfl

/-- `distributeEntry` preserves `current_pnl_usdt`. -/
theorem distributeEntry_pnl (cfg : Config) (tn : String) (av D : ℚ)
    (kv : String × StratState) :
    (distributeEntry cfg tn av D kv).2.current_pnl_usdt = kv.2.current_pnl_usdt := by
  unfold distributeEntry
  repeat' split
  all_goals rfl

/-- A property holding of every value produced by a key-preserving map holds
of every value looked up in its image. -/
theorem alookup_map_forall {β γ : Type} (f : String × β → String × γ)
    (p : γ → Prop) (hp : ∀ kv, p (f kv).2) :
    ∀ (l : List (String × β)) (n : String) (c : γ),
      alookup (l.map f) n = some c → p c := by
  intro l
  induction l with
  | nil => intro n c h; simp [alookup] at h
  | cons kv rest ih =>
    intro n c h
    rw [List.map_cons, alookup_cons] at h
    by_cases hk : (f kv).1 = n
    · rw [if_pos hk] at h
      simp only [Option.some.injEq] at h
      rw [← h]
      exact hp kv
    · rw [if_neg hk] at h
      exact ih n c h

/-- A property holding of every value produced by a `filterMap` holds of
every value looked up in its image. -/
theorem alookup_filterMap_forall {β γ : Type} (f : String × β → Option (String × γ))
    (p : γ → Prop) (hp : ∀ kv w, f kv = some w → p w.2) :
    ∀ (l : List (String × β)) (n : String) (c : γ),
      alookup (l.filterMap f) n = some c → p c := by
  intro l
  induction l with
  | nil => intro n c h; simp [alookup] at h
  | cons kv rest ih =>
    intro n c h
    cases hf : f kv with
    | none =>
      rw [List.filterMap_cons, hf] at h
      exact ih n c h
    | some w =>
      rw [List.filterMap_cons, hf, alookup_cons] at h
      by_cases hk : w.1 = n
      · rw [if_pos hk] at h
        simp only [Option.some.injEq] at h
        rw [← h]
        exact hp kv w hf
      · rw [if_neg hk] at h
        exact ih n c h

/-- Looking up in the image of a key-preserving map applies the map's value
transform at that key. -/
theorem alookup_map_apply {β : Type} (g : String × β → String × β)
    (hkey : ∀ kv, (g kv).1 = kv.1) (l : List (String × β)) (n : String) :
    alookup (l.map g) n = (alookup l n).map (fun v => (g (n, v)).2) := by
  induction l with
  | nil => rfl
  | cons kv rest ih =>
    rw [List.map_cons, alookup_cons, alookup_cons, hkey kv]
    by_cases hk : kv.1 = n
    · rw [if_pos hk, if_pos hk]
      simp only [Option.map_some']
      rw [← hk]
    · rw [if_neg hk, if_neg hk, ih]

/-- `distributeTier` preserves every strategy's `current_pnl_usdt`. -/
theorem distributeTier_pnl (cfg : Config) (tn : String) (av : ℚ)
    (l : List (String × StratState)) (n : String) (c : StratState)
    (h : alookup (distributeTier cfg tn av l) n = some c) :
    ∃ c0, alookup l n = some c0 ∧ c.current_pnl_usdt = c0.current_pnl_usdt := by
  unfold distributeTier at h
  split_ifs at h
  · exact ⟨c, h, rfl⟩
  · rw [alookup_map_apply _ (distributeEntry_key cfg tn av _) l n] at h
    cases hl : alookup l n with
    | none => rw [hl] at h; simp at h
    | some c0 =>
      rw [hl] at h
      simp only [Option.map_some', Option.some.injEq] at h
      rw [← h]
      exact ⟨c0, rfl, distributeEntry_pnl cfg tn av _ (n, c0)⟩

/-- `distributeAll` preserves every strategy's `current_pnl_usdt`. -/
theorem distributeAll_pnl (cfg : Config) (tiers : List (String × TierState))
    (l : List (String × StratState)) (n : String) (c : StratState)
    (h : alookup (distributeAll cfg tiers l) n = some c) :
    ∃ c0, alookup l n = some c0 ∧ c.current_pnl_usdt = c0.current_pnl_usdt := by
  induction tiers generalizing l with
  | nil => exact ⟨c, h, rfl⟩
  | cons tkv rest ih =>
    simp only [distributeAll, List.foldl_cons] at h
    obtain ⟨c1, h1, e1⟩ := ih _ h
    obtain ⟨c0, h0, e0⟩ := distributeTier_pnl cfg tkv.1 tkv.2.available_capital_usdt l n c1 h1
    exact ⟨c0, h0, e1.trans e0⟩

/-- C4 (amended). Rebalance replaces `risk_tiers` and `strategies` wholesale
and resets every tier's and strategy's `current_pnl` to 0 (they are not
carried forward); the ledger-level `overall_pnl` is preserved. -/
theorem rebalance_resets_pnl (cfg : Config) (s : Ledger) :
    (∀ (n : String) (ts : TierState),
        alookup (rebalance_allocations cfg s).risk_tiers n = some ts →
        ts.current_pnl_usdt = 0)
    ∧ (∀ (n : String) (ss : StratState),
        alookup (rebalance_allocations cfg s).strategies n = some ss →
        ss.current_pnl_usdt = 0)
    ∧ (rebalance_allocations cfg s).overall_pnl_usdt = s.overall_pnl_usdt := by
  refine ⟨?_, ?_, rebalance_overall cfg s⟩
  · intro n ts h
    rw [rebalance_tiers] at h
    unfold computeTiers at h
    exact alookup_map_forall _ (fun c => c.current_pnl_usdt = 0) (fun kv => rfl) _ n ts h
  · intro n ss h
    rw [rebalance_strats] at h
    obtain ⟨c0, h0, e0⟩ := distributeAll_pnl cfg _ _ n ss h
    rw [e0]
    unfold computeStrategies at h0
    refine alookup_filterMap_forall _ (fun c => c.current_pnl_usdt = 0) ?_ _ n c0 h0
    intro kv w hw
    unfold strategyEntry at hw
    cases ht : alookup (computeTiers cfg s.current_total_budget_usdt) kv.2.risk_tier with
    | none => rw [ht] at hw; simp at hw
    | some ts =>
      rw [ht] at hw
      simp only [Option.some.injEq] at hw
      rw [← hw]

/-- Witness for `rebalance_resets_pnl` at the rebalanced genesis ledger. -/
theorem rebalance_resets_pnl_witness :
    alookup (rebalance_allocations defaultCfg genesis40).strategies "pionex_btc_eth_grid"
        = some ⟨"conservative", 6/10, 36/5, 36/5, 36/5, 0, 0, 6, 1, true⟩
    ∧ (⟨"conservative", 6/10, 36/5, 36/5, 36/5, 0, 0, 6, 1, true⟩
        : StratState).current_pnl_usdt = 0 :=
  ⟨by with_unfolding_all decide,
   (rebalance_resets_pnl defaultCfg genesis40).2.1 "pionex_btc_eth_grid"
     ⟨"conservative", 6/10, 36/5, 36/5, 36/5, 0, 0, 6, 1, true⟩
     (by with_unfolding_all decide)⟩

/-- A tier whose name is not the strategy's configured tier — or with no
capital-requiring shares, or for a non-capital strategy — leaves that
strategy's entry unchanged. -/
theorem distributeTier_id_of (cfg : Config) (strat : String) (scfg : StratCfg)
    (hc : alookup cfg.strategy_config strat = some scfg)
    (tn : String) (av : ℚ) (strats : List (String × StratState))
    (h : tn ≠ scfg.risk_tier ∨ scfg.requires_capital = false ∨ sumShares cfg tn = 0) :
    alookup (distributeTier cfg tn av strats) strat = alookup strats strat := by
  unfold distributeTier
  split_ifs with hD
  · rfl
  · rw [alookup_map_apply _ (distributeEntry_key cfg tn av _) strats strat]
    cases hl : alookup strats strat with
    | none => rfl
    | some v =>
      simp only [Option.map_some']
      simp only [distributeEntry, hc]
      rcases h with h | h | h
      · rw [if_neg]
        intro hcontra
        exact h hcontra.1.symm
      · rw [if_neg]
        intro hcontra
        rw [h] at hcontra
        exact Bool.false_ne_true hcontra.2
      · exact absurd h hD

/-- Tiers that all skip the given strategy leave its entry unchanged. -/
theorem distributeAll_id_of (cfg : Config) (strat : String) (scfg : StratCfg)
    (hc : alookup cfg.strategy_config strat = some scfg) :
    ∀ (tiers : List (String × TierState)) (strats : List (String × StratState)),
      (∀ tkv ∈ tiers, tkv.1 ≠ scfg.risk_tier ∨ scfg.requires_capital = false
        ∨ sumShares cfg tkv.1 = 0) →
      alookup (distributeAll cfg tiers strats) strat = alookup strats strat := by
  intro tiers
  induction tiers with
  | nil => intro strats _; rfl
  | cons tkv rest ih =>
    intro strats hne
    simp only [distributeAll, List.foldl_cons]
    have h1 := ih (distributeTier cfg tkv.1 tkv.2.available_capital_usdt strats)
      (fun m hm => hne m (List.mem_cons_of_mem _ hm))
    simp only [distributeAll] at h1
    rw [h1]
    exact distributeTier_id_of cfg strat scfg hc tkv.1 tkv.2.available_capital_usdt strats
      (hne tkv (List.mem_cons_self _ _))

/-- A capital-requiring strategy whose tier is present in the tier table
(with unique tier names and a nonzero capital-requiring share sum) ends up
with `allocated = available = round2(tier_available * share / D)`. -/
theorem distributeAll_alloc (cfg : Config) (strat : String) (scfg : StratCfg)
    (hc : alookup cfg.strategy_config strat = some scfg)
    (hreq : scfg.requires_capital = true)
    (hD : sumShares cfg scfg.risk_tier ≠ 0) :
    ∀ (tiers : List (String × TierState)) (strats : List (String × StratState))
      (tierSt : TierState) (ss0 : StratState),
      (tiers.map Prod.fst).Nodup →
      alookup tiers scfg.risk_tier = some tierSt →
      alookup strats strat = some ss0 →
      alookup (distributeAll cfg tiers strats) strat
        = some { ss0 with
            allocated_capital_usdt := round2 (tierSt.available_capital_usdt
              * (scfg.tier_share_percentage / sumShares cfg scfg.risk_tier))
            available_for_new_positions_usdt := round2 (tierSt.available_capital_usdt
              * (scfg.tier_share_percentage / sumShares cfg scfg.risk_tier)) } := by
  intro tiers
  induction tiers with
  | nil => intro strats tierSt ss0 _ ht _; simp [alookup] at ht
  | cons tkv rest ih =>
    intro strats tierSt ss0 hnd ht hs
    rw [alookup_cons] at ht
    simp only [List.map_cons, List.nodup_cons] at hnd
    simp only [distributeAll, List.foldl_cons]
    by_cases htn : tkv.1 = scfg.risk_tier
    · rw [if_pos htn] at ht
      simp only [Option.some.injEq] at ht
      have hstep : alookup (distributeTier cfg tkv.1 tkv.2.available_capital_usdt strats) strat
          = some { ss0 with
              allocated_capital_usdt := round2 (tierSt.available_capital_usdt
                * (scfg.tier_share_percentage / sumShares cfg scfg.risk_tier))
              available_for_new_positions_usdt := round2 (tierSt.available_capital_usdt
                * (scfg.tier_share_percentage / sumShares cfg scfg.risk_tier)) } := by
        unfold distributeTier
        rw [if_neg (by rw [htn]; exact hD)]
        rw [alookup_map_apply _ (distributeEntry_key cfg tkv.1 tkv.2.available_capital_usdt _)
          strats strat, hs]
        simp only [Option.map_some', Option.some.injEq]
        simp only [distributeEntry, hc]
        rw [if_pos ⟨htn.symm, hreq⟩]
        rw [htn, ht]
      have hrest : ∀ tkv2 ∈ rest, tkv2.1 ≠ scfg.risk_tier ∨ scfg.requires_capital = false
          ∨ sumShares cfg tkv2.1 = 0 := by
        intro tkv2 hm
        left
        intro hcontra
        have hmem : tkv2.1 ∈ rest.map Prod.fst := List.mem_map_of_mem Prod.fst hm
        rw [hcontra, ← htn] at hmem
        exact hnd.1 hmem
      have h2 := distributeAll_id_of cfg strat scfg hc rest
        (distributeTier cfg tkv.1 tkv.2.available_capital_usdt strats) hrest
      simp only [distributeAll] at h2
      rw [h2, hstep]
    · rw [if_neg htn] at ht
      have hskip := distributeTier_id_of cfg strat scfg hc tkv.1
        tkv.2.available_capital_usdt strats (.inl htn)
      exact ih _ tierSt ss0 hnd.2 ht (hskip.trans hs)

/-- `computeTiers` keeps the configured tier names. -/
theorem computeTiers_keys (cfg : Config) (t : ℚ) :
    (computeTiers cfg t).map Prod.fst = cfg.risk_tier_config.map Prod.fst := by
  unfold computeTiers
  rw [List.map_map]
  rfl

/-- Looking up the image of the first binding of a key under a key-preserving
`filterMap` that keeps that binding. -/
theorem alookup_filterMap_first {β γ : Type} (f : String × β → Option (String × γ))
    (hkey : ∀ kv w, f kv = some w → w.1 = kv.1) :
    ∀ (l : List (String × β)) (n : String) (v : β) (w : String × γ),
      alookup l n = some v → f (n, v) = some w →
      alookup (l.filterMap f) n = some w.2 := by
  intro l
  induction l with
  | nil => intro n v w hv _; simp [alookup] at hv
  | cons kv rest ih =>
    intro n v w hv hw
    rw [alookup_cons] at hv
    by_cases hk : kv.1 = n
    · rw [if_pos hk] at hv
      simp only [Option.some.injEq] at hv
      have hkv : kv = (n, v) := by
        rw [← hk, ← hv]
      rw [List.filterMap_cons, hkv, hw, alookup_cons]
      have := hkey (n, v) w hw
      rw [if_pos this]
    · rw [if_neg hk] at hv
      rw [List.filterMap_cons]
      cases hf : f kv with
      | none => exact ih n v w hv hw
      | some w2 =>
        rw [alookup_cons]
        have hk2 : w2.1 = kv.1 := hkey kv w2 hf
        rw [hk2, if_neg hk]
        exact ih n v w hv hw

/-- `strategyEntry` preserves the key. -/
theorem strategyEntry_key (tiers : List (String × TierState)) (kv : String × StratCfg)
    (w : String × StratState) (hw : strategyEntry tiers kv = some w) : w.1 = kv.1 := by
  unfold strategyEntry at hw
  cases ht : alookup tiers kv.2.risk_tier with
  | none => rw [ht] at hw; simp at hw
  | some ts =>
    rw [ht] at hw
    simp only [Option.some.injEq] at hw
    rw [← hw]

/-- The strategy table built by pass 2: a configured strategy whose tier is
present gets the zero-allocation record with its informational
`potential_capital`. -/
theorem computeStrategies_at (cfg : Config) (tiers : List (String × TierState))
    (strat : String) (scfg : StratCfg) (ts : TierState)
    (hc : alookup cfg.strategy_config strat = some scfg)
    (ht : alookup tiers scfg.risk_tier = some ts) :
    alookup (computeStrategies cfg tiers) strat = some
      { risk_tier := scfg.risk_tier
        tier_share_percentage := scfg.tier_share_percentage
        potential_capital_usdt := round2 (ts.total_capital_usdt * scfg.tier_share_percentage)
        allocated_capital_usdt := 0
        available_for_new_positions_usdt := 0
        capital_in_use_usdt := 0
        current_pnl_usdt := 0
        max_capital_per_trade_usdt := scfg.max_capital_per_trade_usdt
        max_concurrent_positions := scfg.max_concurrent_positions
        requires_capital := scfg.requires_capital } := by
  unfold computeStrategies
  have hw : strategyEntry tiers (strat, scfg) = some (strat,
      { risk_tier := scfg.risk_tier
        tier_share_percentage := scfg.tier_share_percentage
        potential_capital_usdt := round2 (ts.total_capital_usdt * scfg.tier_share_percentage)
        allocated_capital_usdt := 0
        available_for_new_positions_usdt := 0
        capital_in_use_usdt := 0
        current_pnl_usdt := 0
        max_capital_per_trade_usdt := scfg.max_capital_per_trade_usdt
        max_concurrent_positions := scfg.max_concurrent_positions
        requires_capital := scfg.requires_capital }) := by
    unfold strategyEntry
    rw [ht]
  exact alookup_filterMap_first (strategyEntry tiers) (strategyEntry_key tiers)
    cfg.strategy_config strat scfg _ hc hw

/-- C8 (amended). Allocation normalization: rebalance gives each
capital-requiring strategy `allocated_capital = round((tier available
capital) * (tier_share_pct / D), 2)` where `D` sums the `tier_share_pct` of
the tier's capital-requiring strategies only (so non-capital strategies do
not dilute the others); when `D = 0` no distribution happens and when the
strategy does not require capital its allocation stays 0. -/
theorem allocation_normalized (cfg : Config) (s : Ledger) (strat : String)
    (scfg : StratCfg) (tierSt : TierState)
    (hnd : (cfg.risk_tier_config.map Prod.fst).Nodup)
    (hc : alookup cfg.strategy_config strat = some scfg)
    (ht : alookup (rebalance_allocations cfg s).risk_tiers scfg.risk_tier = some tierSt) :
    (scfg.requires_capital = true → sumShares cfg scfg.risk_tier ≠ 0 →
      (alookup (rebalance_allocations cfg s).strategies strat).map (·.allocated_capital_usdt)
        = some (round2 (tierSt.available_capital_usdt
            * (scfg.tier_share_percentage / sumShares cfg scfg.risk_tier))))
    ∧ (scfg.requires_capital = false →
      (alookup (rebalance_allocations cfg s).strategies strat).map (·.allocated_capital_usdt)
        = some 0)
    ∧ (sumShares cfg scfg.risk_tier = 0 →
      (alookup (rebalance_allocations cfg s).strategies strat).map (·.allocated_capital_usdt)
        = some 0) := by
  rw [rebalance_tiers] at ht
  have hndT : ((computeTiers cfg s.current_total_budget_usdt).map Prod.fst).Nodup := by
    rw [computeTiers_keys]; exact hnd
  have hss0 := computeStrategies_at cfg (computeTiers cfg s.current_total_budget_usdt)
    strat scfg tierSt hc ht
  refine ⟨?_, ?_, ?_⟩
  · intro hreq hD
    rw [rebalance_strats]
    rw [distributeAll_alloc cfg strat scfg hc hreq hD _ _ tierSt _ hndT ht hss0]
    rfl
  · intro hreqF
    rw [rebalance_strats]
    rw [distributeAll_id_of cfg strat scfg hc _ _ (fun tkv _ => .inr (.inl hreqF))]
    rw [hss0]
    rfl
  · intro hD0
    have hskip : ∀ tkv ∈ computeTiers cfg s.current_total_budget_usdt,
        tkv.1 ≠ scfg.risk_tier ∨ scfg.requires_capital = false
        ∨ sumShares cfg tkv.1 = 0 := by
      intro tkv _
      by_cases htn : tkv.1 = scfg.risk_tier
      · right; right; rw [htn]; exact hD0
      · left; exact htn
    rw [rebalance_strats]
    rw [distributeAll_id_of cfg strat scfg hc _ _ hskip]
    rw [hss0]
    rfl

/-- Witness for `allocation_normalized`: the spec's concrete scenario —
budget $40, conservative tier $12.00, shares 0.60/0.40 — gives the grid
strategy `allocated_capital` $7.20. -/
theorem allocation_normalized_witness :
    (List.map Prod.fst defaultCfg.risk_tier_config).Nodup
    ∧ alookup defaultCfg.strategy_config "pionex_btc_eth_grid"
        = some ⟨"conservative", 6/10, 6, 1, true⟩
    ∧ alookup (rebalance_allocations defaultCfg genesis40).risk_tiers "conservative"
        = some ⟨12, 12, 0, 6/5⟩
    ∧ (alookup (rebalance_allocations defaultCfg genesis40).strategies
        "pionex_btc_eth_grid").map (·.allocated_capital_usdt) = some (36/5)
    ∧ round2 ((12:ℚ) * ((6/10) / sumShares defaultCfg "conservative")) = 36/5 := by
  refine ⟨by with_unfolding_all decide, by with_unfolding_all decide,
    by with_unfolding_all decide, ?_, by with_unfolding_all decide⟩
  have h := (allocation_normalized defaultCfg genesis40 "pionex_btc_eth_grid"
    ⟨"conservative", 6/10, 6, 1, true⟩ ⟨12, 12, 0, 6/5⟩
    (by with_unfolding_all decide) (by with_unfolding_all decide)
    (by with_unfolding_all decide)).1 rfl (by with_unfolding_all decide)
  exact h.trans (by with_unfolding_all decide)

/-- When the breaker evaluation ends ACTIVE, its only effect is appending
the per-tier max-loss warnings to the event log. -/
theorem check_active_eq (s : Ledger)
    (hb : (check_circuit_breakers s).circuit_breaker_status = .active) :
    check_circuit_breakers s
      = { s with log := appendEvents s.log (tierWarnings s.risk_tiers) } := by
  unfold check_circuit_breakers at hb ⊢
  cases hsb : s.circuit_breaker_status <;>
    split_ifs at hb ⊢ <;> simp_all [BreakerStatus.isTripped]

/-- C10 (amended). A capital request for a configured non-capital strategy,
with the breaker evaluating to ACTIVE, returns `(approved = true,
granted = 0)` without appending a position, without touching any capital or
P&L field or the save count — but the resulting ledger is the
breaker-evaluated one, whose event log may have gained tier max-loss
warnings. -/
theorem noncapital_request_frame (cfg : Config) (s : Ledger) (strat : String)
    (req : ℚ) (posId : String) (ss : StratState) (scfg : StratCfg)
    (hb : (check_circuit_breakers s).circuit_breaker_status = .active)
    (hs : alookup s.strategies strat = some ss)
    (hc : alookup cfg.strategy_config strat = some scfg)
    (hreq : scfg.requires_capital = false) :
    (request_capital_for_trade cfg s strat req posId).2
        = .ok ⟨true, 0, .noCapitalRequired strat⟩
    ∧ (request_capital_for_trade cfg s strat req posId).1
        = { s with log := appendEvents s.log (tierWarnings s.risk_tiers) } := by
  have hck := check_active_eq s hb
  have h1 : (check_circuit_breakers s).circuit_breaker_status.isTripped = false := by
    rw [hb]
    rfl
  have hs1 : alookup (check_circuit_breakers s).strategies strat = some ss := by
    rw [check_strats]
    exact hs
  unfold request_capital_for_trade requestAux
  rw [h1, hs1, hc]
  simp only [Bool.false_eq_true, if_false, hreq]
  exact ⟨rfl, hck⟩

/-- Witness for `noncapital_request_frame` at `tierBreached` with the
non-capital `"github_arbitrage_automation"` strategy. -/
theorem noncapital_request_frame_witness :
    (check_circuit_breakers tierBreached).circuit_breaker_status = .active
    ∧ (request_capital_for_trade defaultCfg tierBreached
        "github_arbitrage_automation" 1 "p1").2
      = .ok ⟨true, 0, .noCapitalRequired "github_arbitrage_automation"⟩ :=
  ⟨by with_unfolding_all decide,
   (noncapital_request_frame defaultCfg tierBreached "github_arbitrage_automation" 1 "p1"
     ⟨"moderate", 1/4, 4, 0, 0, 0, 0, 0, 5, false⟩ ⟨"moderate", 25/100, 0, 5, false⟩
     (by with_unfolding_all decide) (by with_unfolding_all decide)
     (by with_unfolding_all decide) (by with_unfolding_all decide)).1⟩

/-- C6 (amended). Capital grant clamping: with the breaker ACTIVE, a known
capital-requiring strategy under its position limit, and
`g = min(requested, max_capital_per_trade, available_for_new_positions)`:
if `g <= 0.01` the request is rejected as insufficient capital; otherwise
it is approved returning `round(g, 2)`, the stored position's capital is
`round(g, 2)`, and `available_for_new_positions`/`capital_in_use` move by
the unrounded `g`. -/
theorem capital_grant_clamping (cfg : Config) (s : Ledger) (strat : String)
    (req : ℚ) (posId : String) (ss : StratState) (scfg : StratCfg)
    (hb : (check_circuit_breakers s).circuit_breaker_status = .active)
    (hs : alookup s.strategies strat = some ss)
    (hc : alookup cfg.strategy_config strat = some scfg)
    (hreq : scfg.requires_capital = true)
    (hpos : (activeFor s strat).length < scfg.max_concurrent_positions) :
    ((1:ℚ)/100 < min req (min scfg.max_capital_per_trade_usdt
        ss.available_for_new_positions_usdt) →
      (request_capital_for_trade cfg s strat req posId).2
        = .ok ⟨true, round2 (min req (min scfg.max_capital_per_trade_usdt
            ss.available_for_new_positions_usdt)),
          .approved (round2 (min req (min scfg.max_capital_per_trade_usdt
            ss.available_for_new_positions_usdt))) strat posId⟩
      ∧ alookup (request_capital_for_trade cfg s strat req posId).1.strategies strat
        = some { ss with
            available_for_new_positions_usdt := ss.available_for_new_positions_usdt
              - min req (min scfg.max_capital_per_trade_usdt
                  ss.available_for_new_positions_usdt)
            capital_in_use_usdt := ss.capital_in_use_usdt
              + min req (min scfg.max_capital_per_trade_usdt
                  ss.available_for_new_positions_usdt) }
      ∧ alookup (request_capital_for_trade cfg s strat req posId).1.active_positions_by_strategy
          strat
        = some (activeFor s strat ++ [⟨posId, round2 (min req
            (min scfg.max_capital_per_trade_usdt ss.available_for_new_positions_usdt))⟩]))
    ∧ (min req (min scfg.max_capital_per_trade_usdt
        ss.available_for_new_positions_usdt) ≤ (1:ℚ)/100 →
      (request_capital_for_trade cfg s strat req posId).2
        = .ok ⟨false, 0, .insufficientCapital strat
            ss.available_for_new_positions_usdt req⟩) := by
  have h1 : (check_circuit_breakers s).circuit_breaker_status.isTripped = false := by
    rw [hb]
    rfl
  have hs1 : alookup (check_circuit_breakers s).strategies strat = some ss := by
    rw [check_strats]
    exact hs
  have hact : activeFor (check_circuit_breakers s) strat = activeFor s strat := by
    unfold activeFor
    rw [check_positions]
  unfold request_capital_for_trade requestAux
  rw [h1, hs1, hc]
  simp only [Bool.false_eq_true, Bool.true_eq_false, if_false, ite_false, hreq, hact]
  rw [if_neg (show ¬(scfg.max_concurrent_positions ≤ (activeFor s strat).length) by omega)]
  constructor
  · intro hgt
    rw [if_neg (not_le.mpr hgt)]
    refine ⟨rfl, ?_, ?_⟩
    · show alookup (aupdate (check_circuit_breakers s).strategies strat _) strat = _
      rw [check_strats]
      exact alookup_aupdate_self s.strategies strat _ ss hs
    · show alookup (appendPos (check_circuit_breakers s).active_positions_by_strategy
        strat _) strat = _
      rw [check_positions, alookup_appendPos_self]
      rfl
  · intro hle
    rw [if_pos hle]

/-- Witness for `capital_grant_clamping`: the spec's scenario — grid
strategy with max $6.00 per trade and $7.20 available, request $10.00 —
grants exactly $6.00. -/
theorem capital_grant_clamping_witness :
    (1:ℚ)/100 < min 10 (min 6 (36/5))
    ∧ (request_capital_for_trade defaultCfg genesis40 "pionex_btc_eth_grid" 10 "p1").2
      = .ok ⟨true, 6, .approved 6 "pionex_btc_eth_grid" "p1"⟩ := by
  refine ⟨by norm_num, ?_⟩
  have h := ((capital_grant_clamping defaultCfg genesis40 "pionex_btc_eth_grid" 10 "p1"
    ⟨"conservative", 6/10, 36/5, 36/5, 36/5, 0, 0, 6, 1, true⟩
    ⟨"conservative", 6/10, 6, 1, true⟩
    (by with_unfolding_all decide) (by with_unfolding_all decide)
    (by with_unfolding_all decide) rfl
    (by with_unfolding_all decide)).1 (by norm_num)).1
  exact h.trans (by with_unfolding_all decide)
